import Mathlib

/-!
Verification of the shield-lite Monte Carlo wrapper
(`src/shield_lite/core/monte_carlo.py`).

The Python module `monte_carlo.py` is a thin stateful wrapper around a
compiled C++ engine (`shield_lite._monte_carlo`) that is not part of the
source tree.  We embed the wrapper shallowly:

* Python floats are modelled as exact rationals (`ℚ`); Python ints as `ℤ`;
* the wrapper state `_layers_info` is a `List Layer`;
* raised exceptions become an explicit `SimError` value, either through
  `Except` (for functions whose state we do not need on failure) or through
  a `state × Option SimError` pair (for mutating operations, so that the
  state reached before the exception is observable);
* the absent C++ engine is an abstract function parameter `Engine`; the two
  validations the spec locates inside it (layer validation in `add_layer`,
  parameter validation in `run`) are modelled from the spec and marked as
  such in their doc comments.

`np.exp` is modelled as `Real.exp`, so the analytical-comparison layer lives
over `ℝ`.
-/

namespace ShieldLite

/-- One entry of the wrapper's `_layers_info` list: the dictionary built by
`MonteCarloShieldSimulator.add_layer` (material name plus the five numeric
fields), with floats modelled as exact rationals. -/
structure Layer where
  material : String
  thickness_cm : ℚ
  mu_total : ℚ
  mu_compton : ℚ
  mu_photoelectric : ℚ
  density_g_cm3 : ℚ
deriving DecidableEq, Repr

instance : Inhabited Layer := ⟨⟨"", 0, 0, 0, 0, 0⟩⟩

/-- The exceptions the modelled code can raise.  `emptyStackError` stands for
the `ValueError` raised by `run` on an empty shield (the spec's
`EmptyStackError`); `keyError` carries the missing key as Python's `KeyError`
does; `zeroDivisionError` is Python's `ZeroDivisionError` from `1.0 / 0.0`. -/
inductive SimError where
  | emptyStackError
  | invalidParameterError
  | invalidLayerError
  | keyError (key : String)
  | zeroDivisionError
deriving DecidableEq, Repr

/-- Layer validation.  Modelled from the spec: the C++ `add_layer` is not in
the source tree; §4.1 has `append_layer` validate `thickness > 0`,
`density > 0` and attenuation coefficients `≥ 0`, raising `InvalidLayerError`
otherwise. -/
def validLayer (l : Layer) : Bool :=
  (0 < l.thickness_cm) && (0 < l.density_g_cm3) &&
  (0 ≤ l.mu_total) && (0 ≤ l.mu_compton) && (0 ≤ l.mu_photoelectric)

/-- `MonteCarloShieldSimulator.add_layer`, acting on the `_layers_info`
state.  The C++ call precedes the Python-side `append`, so when the
(spec-modelled) validation fails the state is unchanged; on success the
layer record is appended at the end. -/
def add_layer (s : List Layer) (l : Layer) : List Layer × Option SimError :=
  if validLayer l then (s ++ [l], none) else (s, some .invalidLayerError)

/-- `MonteCarloShieldSimulator.clear_layers`: empties `_layers_info`. -/
def clear_layers (_s : List Layer) : List Layer := []

/-- `MonteCarloShieldSimulator.get_total_thickness`:
`sum(layer['thickness_cm'] for layer in self._layers_info)`. -/
def get_total_thickness (s : List Layer) : ℚ :=
  (s.map (fun l => l.thickness_cm)).sum

/-- The result record produced by the C++ engine's `run` (fields as listed in
the wrapper's docstring). -/
structure MonteCarloResult where
  dose_transmitted : ℝ
  dose_absorbed : ℝ
  transmission_factor : ℝ
  buildup_factor : ℝ
  uncertainty : ℝ
  total_photons : ℤ
  transmitted_photons : ℤ

/-- The C++ engine's simulation proper, abstracted: given the layer stack,
source energy, photon count and source area it produces a result record.
The wrapper is verified for an arbitrary engine. -/
def Engine : Type :=
  List Layer → ℚ → ℤ → ℚ → MonteCarloResult

/-- A trivial concrete engine, used to instantiate theorems about the
wrapper at concrete inputs. -/
def constEngine : Engine :=
  fun _ _ _ _ => ⟨0, 0, 0, 0, 0, 0, 0⟩

/-- `MonteCarloShieldSimulator.run`.  The Python wrapper itself raises
`ValueError` (the spec's `EmptyStackError`) when `get_num_layers() == 0`,
before delegating to the C++ engine.  The parameter validation is modelled
from the spec: the C++ `run` is not in the source tree; §4.3 requires
`num_photons ≥ 1` and `source_energy_MeV > 0`, violations raising
`InvalidParameterError`. -/
def run (engine : Engine) (s : List Layer) (source_energy_MeV : ℚ)
    (num_photons : ℤ) (source_area_cm2 : ℚ) : Except SimError MonteCarloResult :=
  if s.length == 0 then
    .error .emptyStackError
  else if num_photons < 1 ∨ source_energy_MeV ≤ 0 then
    .error .invalidParameterError
  else
    .ok (engine s source_energy_MeV num_photons source_area_cm2)

/-- Python's `int()` applied to a (here: exact) real value: truncation toward
zero. -/
def truncToInt (q : ℚ) : ℤ :=
  if 0 ≤ q then ⌊q⌋ else ⌈q⌉

/-- `estimate_required_photons`.  The source computes
`n_total = int((1.0 / (desired_uncertainty**2 * expected_transmission)) * 1.5)`
and returns `max(10000, n_total)`; the division raises `ZeroDivisionError`
when the denominator is zero.  The function performs no input validation. -/
def estimate_required_photons (desired_uncertainty expected_transmission : ℚ) :
    Except SimError ℤ :=
  if desired_uncertainty ^ 2 * expected_transmission = 0 then
    .error .zeroDivisionError
  else
    .ok (max 10000
      (truncToInt ((1 / (desired_uncertainty ^ 2 * expected_transmission)) * (3 / 2))))

/-- The dictionary returned by `compare_with_analytical`. -/
structure CompareResult where
  monte_carlo : MonteCarloResult
  analytical_transmission : ℝ
  buildup_factor : ℝ
  difference_percent : ℝ
  mc_transmission : ℝ
  mc_uncertainty : ℝ

/-- The Beer-Lambert exponent `sum(layer['mu_total'] * layer['thickness_cm']
for layer in self._layers_info)` computed by `compare_with_analytical`. -/
def total_mu_thickness (s : List Layer) : ℚ :=
  (s.map (fun l => l.mu_total * l.thickness_cm)).sum

/-- `MonteCarloShieldSimulator.compare_with_analytical`: runs the engine once
(through `run`, with the default `source_area_cm2 = 1.0`), computes
`analytical_transmission = np.exp(-total_mu_thickness)` and, when that is
positive, the buildup ratio and percentage difference.  The source's `else`
branch stores `float('inf')`; over `ℝ` it is unreachable (`Real.exp` is
positive), and we store `0` there. -/
noncomputable def compare_with_analytical (engine : Engine) (s : List Layer)
    (source_energy_MeV : ℚ) (num_photons : ℤ) : Except SimError CompareResult :=
  match run engine s source_energy_MeV num_photons 1 with
  | .error e => .error e
  | .ok mc =>
    let analytical : ℝ := Real.exp (-(total_mu_thickness s : ℝ))
    if 0 < analytical then
      .ok { monte_carlo := mc
            analytical_transmission := analytical
            buildup_factor := mc.transmission_factor / analytical
            difference_percent :=
              (mc.transmission_factor - analytical) / analytical * 100
            mc_transmission := mc.transmission_factor
            mc_uncertainty := mc.uncertainty }
    else
      .ok { monte_carlo := mc
            analytical_transmission := analytical
            buildup_factor := 0
            difference_percent := 0
            mc_transmission := mc.transmission_factor
            mc_uncertainty := mc.uncertainty }

/-! ### Python dictionaries, for `add_layers_from_dict`

Python dicts with unique keys are modelled as association lists whose order
is the dict's iteration order; `d[k]` is the first match and raises
`KeyError(k)` when absent. -/

/-- Python `d[k]`: value of the first entry with key `k`, or `KeyError`. -/
def dictGet (d : List (String × ℚ)) (k : String) : Except SimError ℚ :=
  match d.find? (fun p => p.1 == k) with
  | some p => .ok p.2
  | none => .error (.keyError k)

/-- Python `k in d`. -/
def dictHas (d : List (String × ℚ)) (k : String) : Bool :=
  (d.find? (fun p => p.1 == k)).isSome

/-- Total variant of `dictGet`, defaulting to `0`; agrees with `dictGet`
whenever the key is present. -/
def dictGetD (d : List (String × ℚ)) (k : String) : ℚ :=
  match d.find? (fun p => p.1 == k) with
  | some p => p.2
  | none => 0

/-- The layer record `add_layers_from_dict` builds for one key of
`thicknesses` when every lookup succeeds. -/
def buildLayer (mu_total mu_compton mu_photoelectric density : List (String × ℚ))
    (kt : String × ℚ) : Layer :=
  ⟨kt.1, kt.2, dictGetD mu_total kt.1, dictGetD mu_compton kt.1,
   dictGetD mu_photoelectric kt.1, dictGetD density kt.1⟩

/-- The layers `add_layers_from_dict` would build for all keys of
`thicknesses`, in iteration order. -/
def buildLayers (thicknesses mu_total mu_compton mu_photoelectric density :
    List (String × ℚ)) : List Layer :=
  thicknesses.map (buildLayer mu_total mu_compton mu_photoelectric density)

/-- `MonteCarloShieldSimulator.add_layers_from_dict`: iterates over the keys
of `thicknesses` in order and calls `add_layer` with the five looked-up
values (argument lookups in source order: `mu_total`, `mu_compton`,
`mu_photoelectric`, `density`).  A raised exception aborts the loop, keeping
the layers already appended. -/
def add_layers_from_dict (s : List Layer)
    (thicknesses mu_total mu_compton mu_photoelectric density :
      List (String × ℚ)) : List Layer × Option SimError :=
  match thicknesses with
  | [] => (s, none)
  | (material, t) :: rest =>
    match dictGet mu_total material with
    | .error e => (s, some e)
    | .ok mt =>
      match dictGet mu_compton material with
      | .error e => (s, some e)
      | .ok mc =>
        match dictGet mu_photoelectric material with
        | .error e => (s, some e)
        | .ok mp =>
          match dictGet density material with
          | .error e => (s, some e)
          | .ok de =>
            match add_layer s ⟨material, t, mt, mc, mp, de⟩ with
            | (s2, none) =>
              add_layers_from_dict s2 rest mu_total mu_compton mu_photoelectric density
            | (s2, some e) => (s2, some e)

/-- Specification-side reference for claim C9: call `add_layer` once per
layer, sequentially, aborting at the first exception. -/
def addLayersSeq (s : List Layer) : List Layer → List Layer × Option SimError
  | [] => (s, none)
  | l :: rest =>
    match add_layer s l with
    | (s2, none) => addLayersSeq s2 rest
    | (s2, some e) => (s2, some e)

/-! ### Sequences of stack operations, for claim C8 -/

/-- One call on the mutable simulator: `add_layer` with a given record, or
`clear_layers`. -/
inductive StackOp where
  | append (l : Layer)
  | clear
deriving DecidableEq

/-- Effect of one operation on `_layers_info` (a failed `add_layer` leaves
the state unchanged). -/
def applyOp (s : List Layer) : StackOp → List Layer
  | .append l => (add_layer s l).1
  | .clear => clear_layers s

/-- Effect of a sequence of operations, first to last. -/
def applyOps (s : List Layer) (ops : List StackOp) : List Layer :=
  ops.foldl applyOp s

/-- Specification side: the layers of the successful `append` operations in
a sequence (an `append` whose layer fails validation appends nothing). -/
def successfulAppends (ops : List StackOp) : List Layer :=
  ops.filterMap fun op =>
    match op with
    | .append l => if validLayer l then some l else none
    | .clear => none

/-- Specification side: the suffix of the sequence after its last `clear`
(the whole sequence when it has no `clear`). -/
def sinceLastClear : List StackOp → List StackOp
  | [] => []
  | op :: rest =>
    if StackOp.clear ∈ rest then sinceLastClear rest
    else match op with
      | .clear => rest
      | .append l => .append l :: rest

namespace PyHeap

/-!
### Object-identity model, for claim C10

`get_shield_info` returns `self._layers_info.copy()`: a new list object
whose elements are the very same dictionary objects the simulator holds.
To reason about aliasing we model the Python heap explicitly: list objects
and dictionary objects live in two address-indexed stores, the simulator's
`_layers_info` is the address of one list object, and that list object's
contents are addresses of dictionary objects.  `list.copy()` allocates a
fresh list object with the same dictionary addresses.  Caller mutations are
`writeList` (append / remove / replace elements of a list object, modelled
as installing arbitrary new contents) and `writeDict` (assign the fields of
a dictionary object).
-/

/-- The Python heap: list objects (lists of dictionary addresses) and layer
dictionary objects, each addressed by its index in the store. -/
structure Heap where
  listHeap : List (List ℕ)
  dictHeap : List Layer

/-- A simulator together with the heap it lives in: `simList` is the address
of its `_layers_info` list object. -/
structure SimState where
  heap : Heap
  simList : ℕ

/-- Dereference a list address. -/
def readList (h : Heap) (a : ℕ) : List ℕ :=
  h.listHeap.getD a []

/-- Dereference a dictionary address. -/
def readDict (h : Heap) (d : ℕ) : Layer :=
  h.dictHeap.getD d default

/-- `get_shield_info`: `self._layers_info.copy()` — allocate a fresh list
object with the same dictionary addresses and return its address. -/
def get_shield_info (st : SimState) : SimState × ℕ :=
  (⟨⟨st.heap.listHeap ++ [readList st.heap st.simList], st.heap.dictHeap⟩,
    st.simList⟩,
   st.heap.listHeap.length)

/-- Caller-side mutation of a list object: install new contents (covers
append, removal and element replacement). -/
def writeList (st : SimState) (a : ℕ) (contents : List ℕ) : SimState :=
  ⟨⟨st.heap.listHeap.set a contents, st.heap.dictHeap⟩, st.simList⟩

/-- Caller-side mutation of a dictionary object: overwrite its fields. -/
def writeDict (st : SimState) (d : ℕ) (l : Layer) : SimState :=
  ⟨⟨st.heap.listHeap, st.heap.dictHeap.set d l⟩, st.simList⟩

/-- The layer records a call to `get_shield_info` exposes: the simulator's
list object with every dictionary address dereferenced. -/
def shieldInfoView (st : SimState) : List Layer :=
  (readList st.heap st.simList).map (readDict st.heap)

/-- `get_total_thickness` on the heap model: sum of the `thickness_cm`
fields of the dictionaries referenced by the simulator's list object. -/
def get_total_thickness (st : SimState) : ℚ :=
  ((readList st.heap st.simList).map
    (fun d => (readDict st.heap d).thickness_cm)).sum

end PyHeap

/-- A valid lead layer, used to instantiate theorems at concrete inputs. -/
def pbLayer : Layer :=
  ⟨"Lead", 5, 77 / 100, 58 / 100, 19 / 100, 1134 / 100⟩

/-- A layer with zero thickness, rejected by the validation. -/
def badLayer : Layer :=
  ⟨"Bad", 0, 1, 1, 1, 1⟩

/-! ## Helper lemmas -/

/-- On positive inputs `estimate_required_photons` succeeds and returns the
truncated (= floored, as the value is positive) count. -/
theorem estimate_eq_of_pos (u t : ℚ) (hu : 0 < u) (ht : 0 < t) :
    estimate_required_photons u t =
      .ok (max 10000 ⌊(1 / (u ^ 2 * t)) * (3 / 2)⌋) := by
  have hut : (0 : ℚ) < u ^ 2 * t := by positivity
  have hq : (0 : ℚ) ≤ 1 / (u ^ 2 * t) * (3 / 2) := by positivity
  simp only [estimate_required_photons, truncToInt]
  rw [if_neg (ne_of_gt hut), if_pos hq]

/-- A sequence without `clear` is its own suffix-after-last-clear. -/
theorem sinceLastClear_of_not_mem (ops : List StackOp)
    (h : StackOp.clear ∉ ops) : sinceLastClear ops = ops := by
  induction ops with
  | nil => rfl
  | cons op rest ih =>
    have h1 : StackOp.clear ∉ rest := fun hm => h (List.mem_cons_of_mem _ hm)
    cases op with
    | append l => simp [sinceLastClear, h1]
    | clear => exact absurd (List.mem_cons_self _ _) h

/-- Running a sequence of operations clears the start state exactly when the
sequence contains a `clear`, and ends with the successful appends of the
suffix after the last `clear`. -/
theorem applyOps_eq (ops : List StackOp) : ∀ s : List Layer,
    applyOps s ops =
      (if StackOp.clear ∈ ops then [] else s) ++
        successfulAppends (sinceLastClear ops) := by
  induction ops with
  | nil => intro s; simp [applyOps, successfulAppends, sinceLastClear]
  | cons op rest ih =>
    intro s
    have hstep : applyOps s (op :: rest) = applyOps (applyOp s op) rest := rfl
    rw [hstep, ih]
    by_cases hc : StackOp.clear ∈ rest
    · cases op with
      | append l => simp [sinceLastClear, hc, List.mem_cons]
      | clear => simp [sinceLastClear, hc, List.mem_cons]
    · have hslc : sinceLastClear rest = rest := sinceLastClear_of_not_mem rest hc
      cases op with
      | append l =>
        by_cases hv : validLayer l
        · simp [sinceLastClear, hc, hslc, List.mem_cons, applyOp, add_layer,
            hv, successfulAppends, List.filterMap_cons]
        · simp [sinceLastClear, hc, hslc, List.mem_cons, applyOp, add_layer,
            hv, successfulAppends, List.filterMap_cons]
      | clear =>
        simp [sinceLastClear, hc, hslc, List.mem_cons, applyOp, clear_layers]

/-- A present key looks up to its (first) value. -/
theorem dictGet_of_has (d : List (String × ℚ)) (k : String)
    (h : dictHas d k = true) : dictGet d k = .ok (dictGetD d k) := by
  unfold dictHas at h
  unfold dictGet dictGetD
  cases hf : d.find? (fun p => p.1 == k) with
  | none => rw [hf] at h; simp at h
  | some p => simp [hf]

/-- A missing key raises `KeyError` carrying the key. -/
theorem dictGet_of_not_has (d : List (String × ℚ)) (k : String)
    (h : dictHas d k = false) : dictGet d k = .error (.keyError k) := by
  unfold dictHas at h
  unfold dictGet
  cases hf : d.find? (fun p => p.1 == k) with
  | none => simp
  | some p => rw [hf] at h; simp at h

/-- With every key of `thicknesses` present in the four other dictionaries,
`add_layers_from_dict` is the sequential `add_layer` loop over the built
layers. -/
theorem add_layers_from_dict_eq_seq
    (mt mc mp de : List (String × ℚ)) :
    ∀ (th : List (String × ℚ)) (s : List Layer),
    (∀ k ∈ th.map Prod.fst,
        dictHas mt k = true ∧ dictHas mc k = true ∧
        dictHas mp k = true ∧ dictHas de k = true) →
    add_layers_from_dict s th mt mc mp de =
      addLayersSeq s (buildLayers th mt mc mp de) := by
  intro th
  induction th with
  | nil => intro s _; rfl
  | cons kt rest ih =>
    intro s h
    obtain ⟨k, t⟩ := kt
    obtain ⟨h1, h2, h3, h4⟩ := h k (by simp)
    have hrest : ∀ k2 ∈ rest.map Prod.fst,
        dictHas mt k2 = true ∧ dictHas mc k2 = true ∧
        dictHas mp k2 = true ∧ dictHas de k2 = true :=
      fun k2 hm => h k2 (by simp [hm])
    unfold add_layers_from_dict
    rw [dictGet_of_has mt k h1, dictGet_of_has mc k h2,
      dictGet_of_has mp k h3, dictGet_of_has de k h4]
    show (match add_layer s ⟨k, t, dictGetD mt k, dictGetD mc k,
        dictGetD mp k, dictGetD de k⟩ with
      | (s2, none) => add_layers_from_dict s2 rest mt mc mp de
      | (s2, some e) => (s2, some e)) = _
    have hbl : buildLayers ((k, t) :: rest) mt mc mp de =
        (⟨k, t, dictGetD mt k, dictGetD mc k, dictGetD mp k, dictGetD de k⟩ :
          Layer) :: buildLayers rest mt mc mp de := rfl
    rw [hbl]
    unfold addLayersSeq
    cases hadd : add_layer s ⟨k, t, dictGetD mt k, dictGetD mc k,
        dictGetD mp k, dictGetD de k⟩ with
    | mk s2 oe =>
      cases oe with
      | none => exact ih s2 hrest
      | some e => rfl

/-- When a key of `thicknesses` is missing from one of the four other
dictionaries and everything before it succeeds, `add_layers_from_dict` stops
with `KeyError` on that key, keeping the layers already appended. -/
theorem add_layers_from_dict_missing
    (mt mc mp de : List (String × ℚ)) (k : String) (t : ℚ)
    (post : List (String × ℚ)) :
    ∀ (pre : List (String × ℚ)) (s : List Layer),
    (∀ k2 ∈ pre.map Prod.fst,
        dictHas mt k2 = true ∧ dictHas mc k2 = true ∧
        dictHas mp k2 = true ∧ dictHas de k2 = true) →
    (∀ l ∈ buildLayers pre mt mc mp de, validLayer l = true) →
    ¬(dictHas mt k = true ∧ dictHas mc k = true ∧
      dictHas mp k = true ∧ dictHas de k = true) →
    add_layers_from_dict s (pre ++ (k, t) :: post) mt mc mp de =
      (s ++ buildLayers pre mt mc mp de, some (.keyError k)) := by
  intro pre
  induction pre with
  | nil =>
    intro s _ _ hmiss
    have hbl : buildLayers [] mt mc mp de = [] := rfl
    rw [hbl, List.append_nil, List.nil_append]
    by_cases h1 : dictHas mt k = true
    case neg =>
      unfold add_layers_from_dict
      rw [dictGet_of_not_has mt k (Bool.not_eq_true _ ▸ h1)]
    case pos =>
      by_cases h2 : dictHas mc k = true
      case neg =>
        unfold add_layers_from_dict
        rw [dictGet_of_has mt k h1,
          dictGet_of_not_has mc k (Bool.not_eq_true _ ▸ h2)]
      case pos =>
        by_cases h3 : dictHas mp k = true
        case neg =>
          unfold add_layers_from_dict
          rw [dictGet_of_has mt k h1, dictGet_of_has mc k h2,
            dictGet_of_not_has mp k (Bool.not_eq_true _ ▸ h3)]
        case pos =>
          by_cases h4 : dictHas de k = true
          case neg =>
            unfold add_layers_from_dict
            rw [dictGet_of_has mt k h1, dictGet_of_has mc k h2,
              dictGet_of_has mp k h3,
              dictGet_of_not_has de k (Bool.not_eq_true _ ▸ h4)]
          case pos => exact absurd ⟨h1, h2, h3, h4⟩ hmiss
  | cons kt rest ih =>
    intro s hpre hval hmiss
    obtain ⟨k1, t1⟩ := kt
    obtain ⟨h1, h2, h3, h4⟩ := hpre k1 (by simp)
    have hv : validLayer ⟨k1, t1, dictGetD mt k1, dictGetD mc k1,
        dictGetD mp k1, dictGetD de k1⟩ = true :=
      hval _ (by simp [buildLayers, buildLayer])
    have hrest : ∀ k2 ∈ rest.map Prod.fst,
        dictHas mt k2 = true ∧ dictHas mc k2 = true ∧
        dictHas mp k2 = true ∧ dictHas de k2 = true :=
      fun k2 hm => hpre k2 (by simp [hm])
    have hvrest : ∀ l ∈ buildLayers rest mt mc mp de, validLayer l = true :=
      fun l hm => hval l (by simp [buildLayers, buildLayer] at hm ⊢; right; exact hm)
    have hcons : ((k1, t1) :: rest) ++ (k, t) :: post =
        (k1, t1) :: (rest ++ (k, t) :: post) := rfl
    rw [hcons]
    unfold add_layers_from_dict
    rw [dictGet_of_has mt k1 h1, dictGet_of_has mc k1 h2,
      dictGet_of_has mp k1 h3, dictGet_of_has de k1 h4]
    show (match add_layer s ⟨k1, t1, dictGetD mt k1, dictGetD mc k1,
        dictGetD mp k1, dictGetD de k1⟩ with
      | (s2, none) => add_layers_from_dict s2 (rest ++ (k, t) :: post) mt mc mp de
      | (s2, some e) => (s2, some e)) = _
    have hadd : add_layer s ⟨k1, t1, dictGetD mt k1, dictGetD mc k1,
        dictGetD mp k1, dictGetD de k1⟩ =
        (s ++ [⟨k1, t1, dictGetD mt k1, dictGetD mc k1, dictGetD mp k1,
          dictGetD de k1⟩], none) := by
      unfold add_layer
      rw [if_pos hv]
    rw [hadd]
    show add_layers_from_dict
        (s ++ [⟨k1, t1, dictGetD mt k1, dictGetD mc k1, dictGetD mp k1,
          dictGetD de k1⟩]) (rest ++ (k, t) :: post) mt mc mp de = _
    rw [ih _ hrest hvrest hmiss]
    have hbl2 : buildLayers ((k1, t1) :: rest) mt mc mp de =
        (⟨k1, t1, dictGetD mt k1, dictGetD mc k1, dictGetD mp k1,
          dictGetD de k1⟩ : Layer) :: buildLayers rest mt mc mp de := rfl
    rw [hbl2, List.append_assoc]
    rfl

/-- `getD` into an append stays in the left part for indices below its
length. -/
theorem list_getD_append_lt {α : Type} (xs ys : List α) (i : ℕ) (d : α)
    (h : i < xs.length) : (xs ++ ys).getD i d = xs.getD i d := by
  induction xs generalizing i with
  | nil => simp at h
  | cons x xs ih =>
    cases i with
    | zero => rfl
    | succ i =>
      simp only [List.cons_append, List.getD_cons_succ]
      exact ih i (by simpa using h)

/-- `getD` at the old length of a one-element append reads that element. -/
theorem list_getD_concat_self {α : Type} (xs : List α) (y d : α) :
    (xs ++ [y]).getD xs.length d = y := by
  induction xs with
  | nil => rfl
  | cons x xs ih =>
    simp only [List.cons_append, List.length_cons, List.getD_cons_succ]
    exact ih

/-- `set` at one index leaves `getD` at another unchanged. -/
theorem list_getD_set_ne {α : Type} (xs : List α) (i j : ℕ) (v d : α)
    (h : i ≠ j) : (xs.set i v).getD j d = xs.getD j d := by
  induction xs generalizing i j with
  | nil => rfl
  | cons x xs ih =>
    cases i with
    | zero =>
      cases j with
      | zero => exact absurd rfl h
      | succ j => rfl
    | succ i =>
      cases j with
      | zero => rfl
      | succ j =>
        have hset : ((x :: xs).set (i + 1) v) = x :: xs.set i v := rfl
        rw [hset, List.getD_cons_succ, List.getD_cons_succ]
        exact ih i j (fun he => h (congrArg Nat.succ he))

/-- `set` at an in-range index makes `getD` there read the new value. -/
theorem list_getD_set_self {α : Type} (xs : List α) (i : ℕ) (v d : α)
    (h : i < xs.length) : (xs.set i v).getD i d = v := by
  induction xs generalizing i with
  | nil => simp at h
  | cons x xs ih =>
    cases i with
    | zero => rfl
    | succ i =>
      have hset : ((x :: xs).set (i + 1) v) = x :: xs.set i v := rfl
      rw [hset, List.getD_cons_succ]
      exact ih i (by simpa using h)

/-- Overwriting one dictionary shifts a thickness sum over addresses by the
occurrence count times the thickness change. -/
theorem sum_thickness_set (dh : List Layer) (d : ℕ) (rec2 : Layer)
    (hd : d < dh.length) (contents : List ℕ) :
    (contents.map
      (fun i => ((dh.set d rec2).getD i default).thickness_cm)).sum =
    (contents.map (fun i => (dh.getD i default).thickness_cm)).sum +
      (contents.count d : ℚ) *
        (rec2.thickness_cm - (dh.getD d default).thickness_cm) := by
  induction contents with
  | nil => simp
  | cons i rest ih =>
    simp only [List.map_cons, List.sum_cons, ih]
    by_cases hi : i = d
    · subst hi
      rw [list_getD_set_self dh i rec2 default hd]
      simp only [List.count_cons, beq_iff_eq, if_pos rfl]
      push_cast
      ring
    · rw [list_getD_set_ne dh d i rec2 default (Ne.symm hi)]
      simp only [List.count_cons, beq_iff_eq, hi, if_false]
      push_cast
      ring

/-- The total thickness is the thickness sum over the exposed layer view. -/
theorem pyheap_total_eq_view_sum (st : PyHeap.SimState) :
    PyHeap.get_total_thickness st =
      ((PyHeap.shieldInfoView st).map (fun l => l.thickness_cm)).sum := by
  simp only [PyHeap.get_total_thickness, PyHeap.shieldInfoView, List.map_map]
  rfl

/-! ## Claims -/

/-- Claim C1: on a stack with zero layers, `run` raises `EmptyStackError`
(the wrapper's `ValueError`), and does so before any photon is simulated —
the conclusion holds for every engine, so the engine is never consulted. -/
theorem claim_C1_empty_stack_raises (engine : Engine) (s : List Layer)
    (e : ℚ) (n : ℤ) (a : ℚ) (h : s.length = 0) :
    run engine s e n a = .error .emptyStackError := by
  simp [run, h]

/-- Witness for C1 at the empty stack. -/
theorem claim_C1_witness :
    run constEngine ([] : List Layer) 1 100000 1 = .error .emptyStackError :=
  claim_C1_empty_stack_raises constEngine [] 1 100000 1 rfl

/-- Counterexample to C2: at `desired_uncertainty = 1/100` and
`expected_transmission = 13/100` the code returns `115384` (truncation),
while the claimed `max(10000, ceil(1.5 / (u^2 * t)))` is `115385`. -/
theorem claim_C2_counterexample :
    estimate_required_photons (1 / 100) (13 / 100) = .ok 115384 ∧
    (115384 : ℤ) ≠
      max 10000 ⌈(1 / ((1 / 100 : ℚ) ^ 2 * (13 / 100))) * (3 / 2)⌉ := by
  constructor
  · norm_num [estimate_required_photons, truncToInt]
  · have hc : (⌈(1 / ((1 / 100 : ℚ) ^ 2 * (13 / 100))) * (3 / 2)⌉ : ℤ) =
        115385 := by
      rw [Int.ceil_eq_iff]
      norm_num
    rw [hc]
    norm_num

/-- Claim C2, amended: on positive inputs `estimate_required_photons`
returns `max(10000, n)` where `n` is `1.5 / (u^2 * t)` truncated toward zero
(the floor, the value being positive) — not the ceiling. -/
theorem claim_C2_floor_not_ceil (u t : ℚ) (hu : 0 < u) (ht : 0 < t) :
    estimate_required_photons u t =
      .ok (max 10000 ⌊(1 / (u ^ 2 * t)) * (3 / 2)⌋) :=
  estimate_eq_of_pos u t hu ht

/-- Witness for the amended C2. -/
theorem claim_C2_witness :
    estimate_required_photons (1 / 100) (13 / 100) =
      .ok (max 10000 ⌊(1 / ((1 / 100 : ℚ) ^ 2 * (13 / 100))) * (3 / 2)⌋) :=
  claim_C2_floor_not_ceil (1 / 100) (13 / 100) (by norm_num) (by norm_num)

/-- Counterexample to C3: a call with `num_photons = 0` on an empty stack
raises the empty-stack error, not `InvalidParameterError` — the wrapper
checks the stack before anything else. -/
theorem claim_C3_counterexample :
    run constEngine ([] : List Layer) 1 0 1 = .error .emptyStackError ∧
    (Except.error SimError.emptyStackError : Except SimError MonteCarloResult) ≠
      .error .invalidParameterError := by
  refine ⟨by simp [run], fun h => ?_⟩
  simp at h

/-- Claim C3, amended: on a non-empty stack, a `num_photons ≤ 0` or a
`source_energy_MeV ≤ 0` makes `run` raise `InvalidParameterError` (on an
empty stack the empty-stack error takes precedence). -/
theorem claim_C3_param_validation (engine : Engine) (s : List Layer)
    (e : ℚ) (n : ℤ) (a : ℚ) (hs : s.length ≠ 0) (h : n ≤ 0 ∨ e ≤ 0) :
    run engine s e n a = .error .invalidParameterError := by
  have h1 : (s.length == 0) = false := by simp [hs]
  have h2 : n < 1 ∨ e ≤ 0 := by
    rcases h with h | h
    · exact Or.inl (by omega)
    · exact Or.inr h
  simp [run, h1, h2]

/-- Witness for the amended C3. -/
theorem claim_C3_witness :
    run constEngine [pbLayer] 1 0 1 = .error .invalidParameterError :=
  claim_C3_param_validation constEngine [pbLayer] 1 0 1 (by simp)
    (Or.inl le_rfl)

/-- Claim C4: `add_layer` rejects (raising `InvalidLayerError`, appending
nothing) any layer with non-positive thickness, non-positive density, or a
negative attenuation coefficient, and appends every layer passing the
validation at the end of the stack. -/
theorem claim_C4_add_layer_validation (s : List Layer) (l : Layer) :
    ((l.thickness_cm ≤ 0 ∨ l.density_g_cm3 ≤ 0 ∨ l.mu_total < 0 ∨
        l.mu_compton < 0 ∨ l.mu_photoelectric < 0) →
      add_layer s l = (s, some .invalidLayerError)) ∧
    ((0 < l.thickness_cm ∧ 0 < l.density_g_cm3 ∧ 0 ≤ l.mu_total ∧
        0 ≤ l.mu_compton ∧ 0 ≤ l.mu_photoelectric) →
      add_layer s l = (s ++ [l], none)) := by
  constructor
  · intro h
    have hv : ¬ (validLayer l = true) := by
      simp only [validLayer, Bool.and_eq_true, decide_eq_true_eq]
      rintro ⟨⟨⟨⟨h1, h2⟩, h3⟩, h4⟩, h5⟩
      rcases h with h | h | h | h | h <;> linarith
    simp [add_layer, hv]
  · rintro ⟨h1, h2, h3, h4, h5⟩
    have hv : validLayer l = true := by
      simp only [validLayer, Bool.and_eq_true, decide_eq_true_eq]
      exact ⟨⟨⟨⟨h1, h2⟩, h3⟩, h4⟩, h5⟩
    simp [add_layer, hv]

/-- Witness for C4: a zero-thickness layer is rejected, a valid lead layer
is appended. -/
theorem claim_C4_witness :
    add_layer [] badLayer = ([], some .invalidLayerError) ∧
    add_layer [] pbLayer = ([pbLayer], none) :=
  ⟨(claim_C4_add_layer_validation [] badLayer).1 (Or.inl le_rfl),
   (claim_C4_add_layer_validation [] pbLayer).2 (by norm_num [pbLayer])⟩

/-- Claim C6: `estimate_required_photons (1/100) (1/10)` returns an integer
at least `10000`, and halving `expected_transmission` never decreases the
estimate. -/
theorem claim_C6_estimator_bounds :
    (∃ n : ℤ, estimate_required_photons (1 / 100) (1 / 10) = .ok n ∧
      10000 ≤ n) ∧
    ∀ u t : ℚ, 0 < u → 0 < t →
      ∃ a b : ℤ, estimate_required_photons u (t / 2) = .ok a ∧
        estimate_required_photons u t = .ok b ∧ b ≤ a := by
  constructor
  · exact ⟨150000, by norm_num [estimate_required_photons, truncToInt],
      by norm_num⟩
  · intro u t hu ht
    have ht2 : (0 : ℚ) < t / 2 := by positivity
    refine ⟨_, _, estimate_eq_of_pos u (t / 2) hu ht2,
      estimate_eq_of_pos u t hu ht, ?_⟩
    apply max_le_max le_rfl
    apply Int.floor_le_floor
    have hx : (0 : ℚ) < u ^ 2 * (t / 2) := by positivity
    have hle : u ^ 2 * (t / 2) ≤ u ^ 2 * t := by nlinarith
    have := one_div_le_one_div_of_le hx hle
    nlinarith

/-- Witness for C6. -/
theorem claim_C6_witness :
    (∃ n : ℤ, estimate_required_photons (1 / 100) (1 / 10) = .ok n ∧
      10000 ≤ n) ∧
    ∃ a b : ℤ, estimate_required_photons (1 / 100) ((1 / 10) / 2) = .ok a ∧
      estimate_required_photons (1 / 100) (1 / 10) = .ok b ∧ b ≤ a :=
  ⟨claim_C6_estimator_bounds.1,
   claim_C6_estimator_bounds.2 (1 / 100) (1 / 10) (by norm_num) (by norm_num)⟩

/-- Counterexample to C7: a negative `desired_uncertainty` does not raise —
the function returns normally (`(-u)^2 = u^2`), so non-positive inputs are
not rejected with `InvalidParameterError`. -/
theorem claim_C7_counterexample :
    estimate_required_photons (-(1 / 100)) (1 / 10) = .ok 150000 ∧
    (Except.ok (150000 : ℤ) : Except SimError ℤ) ≠
      .error .invalidParameterError := by
  refine ⟨by norm_num [estimate_required_photons, truncToInt], fun h => ?_⟩
  simp at h

/-- Claim C7, amended: `estimate_required_photons` performs no input
validation; it raises `ZeroDivisionError` (never `InvalidParameterError`)
exactly when `desired_uncertainty = 0` or `expected_transmission = 0`, and
returns normally on every other input, negative ones included. -/
theorem claim_C7_no_validation (u t : ℚ) :
    (u = 0 ∨ t = 0 →
      estimate_required_photons u t = .error .zeroDivisionError) ∧
    (u ≠ 0 → t ≠ 0 → ∃ n : ℤ, estimate_required_photons u t = .ok n) := by
  constructor
  · rintro (rfl | rfl) <;> simp [estimate_required_photons]
  · intro hu ht
    have hne : u ^ 2 * t ≠ 0 := mul_ne_zero (pow_ne_zero _ hu) ht
    refine ⟨max 10000 (truncToInt ((1 / (u ^ 2 * t)) * (3 / 2))), ?_⟩
    unfold estimate_required_photons
    rw [if_neg hne]

/-- Claim C5: on a non-empty stack with valid run inputs,
`compare_with_analytical` succeeds; its `analytical_transmission` is
`exp(-(sum of mu_total * thickness))`, its `mc_transmission` is the
transmission factor of the single engine run it performs, and whenever
`analytical_transmission > 0` its `difference_percent` is
`(mc - analytical) / analytical * 100`. -/
theorem claim_C5_compare_formulas (engine : Engine) (s : List Layer)
    (e : ℚ) (n : ℤ) (hs : s ≠ []) (hn : 1 ≤ n) (he : 0 < e) :
    ∃ r : CompareResult,
      compare_with_analytical engine s e n = .ok r ∧
      r.analytical_transmission = Real.exp (-(total_mu_thickness s : ℝ)) ∧
      r.mc_transmission = (engine s e n 1).transmission_factor ∧
      (0 < r.analytical_transmission →
        r.difference_percent =
          (r.mc_transmission - r.analytical_transmission) /
            r.analytical_transmission * 100) := by
  have hlen : (s.length == 0) = false := by
    simp [List.length_eq_zero, hs]
  have hcond : ¬ (n < 1 ∨ e ≤ 0) := by
    push_neg
    exact ⟨by omega, he⟩
  have hrun : run engine s e n 1 = .ok (engine s e n 1) := by
    simp [run, hlen, hcond]
  have hexp : (0 : ℝ) < Real.exp (-(total_mu_thickness s : ℝ)) :=
    Real.exp_pos _
  refine ⟨{ monte_carlo := engine s e n 1
            analytical_transmission := Real.exp (-(total_mu_thickness s : ℝ))
            buildup_factor := (engine s e n 1).transmission_factor /
              Real.exp (-(total_mu_thickness s : ℝ))
            difference_percent := ((engine s e n 1).transmission_factor -
                Real.exp (-(total_mu_thickness s : ℝ))) /
              Real.exp (-(total_mu_thickness s : ℝ)) * 100
            mc_transmission := (engine s e n 1).transmission_factor
            mc_uncertainty := (engine s e n 1).uncertainty },
    ?_, rfl, rfl, fun _ => rfl⟩
  simp only [compare_with_analytical, hrun]
  rw [if_pos hexp]

/-- Witness for C5 on a one-layer lead stack. -/
theorem claim_C5_witness :
    ∃ r : CompareResult,
      compare_with_analytical constEngine [pbLayer] 1 100000 = .ok r ∧
      r.analytical_transmission =
        Real.exp (-(total_mu_thickness [pbLayer] : ℝ)) ∧
      r.mc_transmission = (constEngine [pbLayer] 1 100000 1).transmission_factor ∧
      (0 < r.analytical_transmission →
        r.difference_percent =
          (r.mc_transmission - r.analytical_transmission) /
            r.analytical_transmission * 100) :=
  claim_C5_compare_formulas constEngine [pbLayer] 1 100000 (by simp)
    (by norm_num) (by norm_num)

/-- Witness for the amended C7. -/
theorem claim_C7_witness :
    estimate_required_photons 0 1 = .error .zeroDivisionError ∧
    ∃ n : ℤ, estimate_required_photons (-1) (-1) = .ok n :=
  ⟨(claim_C7_no_validation 0 1).1 (Or.inl rfl),
   (claim_C7_no_validation (-1) (-1)).2 (by norm_num) (by norm_num)⟩

/-- Claim C8: after any sequence of `add_layer` and `clear_layers` calls
starting from a fresh simulator, `get_total_thickness` is exactly the sum of
the `thickness_cm` values of the layers successfully appended since the last
`clear` (`0` for an empty stack, the empty sum). -/
theorem claim_C8_total_thickness (ops : List StackOp) :
    get_total_thickness (applyOps [] ops) =
      ((successfulAppends (sinceLastClear ops)).map
        (fun l => l.thickness_cm)).sum := by
  rw [applyOps_eq]
  simp [get_total_thickness]

/-- Claim C9: when every key of `thicknesses` is present in the other four
dictionaries, `add_layers_from_dict` equals the sequential `add_layer` loop
over the keys in iteration order; when a key is missing from one of the four
(everything before it succeeding), the call stops with `KeyError` on that
key and the layers appended for earlier keys remain — the operation is not
atomic. -/
theorem claim_C9_dict_refinement (s : List Layer)
    (th mt mc mp de : List (String × ℚ)) :
    ((∀ k ∈ th.map Prod.fst,
        dictHas mt k = true ∧ dictHas mc k = true ∧
        dictHas mp k = true ∧ dictHas de k = true) →
      add_layers_from_dict s th mt mc mp de =
        addLayersSeq s (buildLayers th mt mc mp de)) ∧
    (∀ (pre : List (String × ℚ)) (k : String) (t : ℚ)
        (post : List (String × ℚ)), th = pre ++ (k, t) :: post →
      (∀ k2 ∈ pre.map Prod.fst,
          dictHas mt k2 = true ∧ dictHas mc k2 = true ∧
          dictHas mp k2 = true ∧ dictHas de k2 = true) →
      (∀ l ∈ buildLayers pre mt mc mp de, validLayer l = true) →
      ¬(dictHas mt k = true ∧ dictHas mc k = true ∧
        dictHas mp k = true ∧ dictHas de k = true) →
      add_layers_from_dict s th mt mc mp de =
        (s ++ buildLayers pre mt mc mp de, some (.keyError k))) :=
  ⟨fun h => add_layers_from_dict_eq_seq mt mc mp de th s h,
   fun pre k t post hth hpre hval hmiss => by
     rw [hth]
     exact add_layers_from_dict_missing mt mc mp de k t post pre s
       hpre hval hmiss⟩

/-- Witness for C9 on two-material dictionaries, with a complete density
dictionary for the equivalence half and one missing the key `Steel` for the
`KeyError` half. -/
theorem claim_C9_witness :
    (add_layers_from_dict []
        [("Lead", 3), ("Steel", 2)]
        [("Lead", 4), ("Steel", 5)]
        [("Lead", 1), ("Steel", 2)]
        [("Lead", 1), ("Steel", 1)]
        [("Lead", 11), ("Steel", 8)] =
      addLayersSeq []
        (buildLayers [("Lead", 3), ("Steel", 2)]
          [("Lead", 4), ("Steel", 5)]
          [("Lead", 1), ("Steel", 2)]
          [("Lead", 1), ("Steel", 1)]
          [("Lead", 11), ("Steel", 8)])) ∧
    (add_layers_from_dict []
        [("Lead", 3), ("Steel", 2)]
        [("Lead", 4), ("Steel", 5)]
        [("Lead", 1), ("Steel", 2)]
        [("Lead", 1), ("Steel", 1)]
        [("Lead", 11)] =
      ([] ++ buildLayers [("Lead", 3)]
          [("Lead", 4), ("Steel", 5)]
          [("Lead", 1), ("Steel", 2)]
          [("Lead", 1), ("Steel", 1)]
          [("Lead", 11)],
        some (.keyError "Steel"))) :=
  ⟨(claim_C9_dict_refinement []
      [("Lead", 3), ("Steel", 2)]
      [("Lead", 4), ("Steel", 5)]
      [("Lead", 1), ("Steel", 2)]
      [("Lead", 1), ("Steel", 1)]
      [("Lead", 11), ("Steel", 8)]).1 (by decide),
   (claim_C9_dict_refinement []
      [("Lead", 3), ("Steel", 2)]
      [("Lead", 4), ("Steel", 5)]
      [("Lead", 1), ("Steel", 2)]
      [("Lead", 1), ("Steel", 1)]
      [("Lead", 11)]).2
    [("Lead", 3)] "Steel" 2 [] rfl (by decide) (by decide) (by decide)⟩

/-- Claim C10: `get_shield_info` returns a fresh list object (a new address,
distinct from the simulator's own list), so arbitrary mutation of the
returned list leaves later `get_shield_info` views and `get_total_thickness`
results unchanged; but the copy is shallow — it holds the simulator's own
layer dictionaries — so overwriting a returned dictionary with a different
thickness changes both later results. -/
theorem claim_C10_shallow_copy (st : PyHeap.SimState)
    (hsim : st.simList < st.heap.listHeap.length) :
    ((PyHeap.get_shield_info st).2 = st.heap.listHeap.length ∧
      (PyHeap.get_shield_info st).2 ≠ st.simList) ∧
    (∀ contents : List ℕ,
      PyHeap.shieldInfoView
          (PyHeap.writeList (PyHeap.get_shield_info st).1
            (PyHeap.get_shield_info st).2 contents) =
        PyHeap.shieldInfoView st ∧
      PyHeap.get_total_thickness
          (PyHeap.writeList (PyHeap.get_shield_info st).1
            (PyHeap.get_shield_info st).2 contents) =
        PyHeap.get_total_thickness st) ∧
    PyHeap.readList (PyHeap.get_shield_info st).1.heap
        (PyHeap.get_shield_info st).2 =
      PyHeap.readList st.heap st.simList ∧
    (∀ (d : ℕ) (rec2 : Layer), d ∈ PyHeap.readList st.heap st.simList →
      d < st.heap.dictHeap.length →
      rec2.thickness_cm ≠ (PyHeap.readDict st.heap d).thickness_cm →
      PyHeap.get_total_thickness
          (PyHeap.writeDict (PyHeap.get_shield_info st).1 d rec2) ≠
        PyHeap.get_total_thickness st ∧
      PyHeap.shieldInfoView
          (PyHeap.writeDict (PyHeap.get_shield_info st).1 d rec2) ≠
        PyHeap.shieldInfoView st) := by
  obtain ⟨⟨lh, dh⟩, sl⟩ := st
  simp only [PyHeap.SimState.heap, PyHeap.SimState.simList, PyHeap.Heap.listHeap,
    PyHeap.Heap.dictHeap] at hsim ⊢
  refine ⟨⟨rfl, ne_of_gt hsim⟩, ?_, ?_, ?_⟩
  · intro contents
    have hrl : PyHeap.readList
        (PyHeap.writeList (PyHeap.get_shield_info ⟨⟨lh, dh⟩, sl⟩).1
          (PyHeap.get_shield_info ⟨⟨lh, dh⟩, sl⟩).2 contents).heap sl =
        lh.getD sl [] := by
      show ((lh ++ [lh.getD sl []]).set lh.length contents).getD sl [] = _
      rw [list_getD_set_ne _ _ _ _ _ (ne_of_gt hsim),
        list_getD_append_lt _ _ _ _ hsim]
    constructor
    · show (PyHeap.readList _ sl).map _ = (PyHeap.readList _ sl).map _
      rw [hrl]
      rfl
    · show ((PyHeap.readList _ sl).map _).sum = ((PyHeap.readList _ sl).map _).sum
      rw [hrl]
      rfl
  · show (lh ++ [lh.getD sl []]).getD lh.length [] = lh.getD sl []
    rw [list_getD_concat_self]
  · intro d rec2 hmem hd hne
    have hrl2 : PyHeap.readList
        (PyHeap.writeDict (PyHeap.get_shield_info ⟨⟨lh, dh⟩, sl⟩).1 d rec2).heap
          sl = lh.getD sl [] := by
      show (lh ++ [lh.getD sl []]).getD sl [] = _
      rw [list_getD_append_lt _ _ _ _ hsim]
    have hmem2 : d ∈ lh.getD sl [] := hmem
    have hd2 : d < dh.length := hd
    have hcount : ((lh.getD sl []).count d : ℚ) ≠ 0 := by
      have : 0 < (lh.getD sl []).count d := List.count_pos_iff.mpr hmem2
      exact_mod_cast Nat.pos_iff_ne_zero.mp this
    have hdelta : rec2.thickness_cm - (dh.getD d default).thickness_cm ≠ 0 :=
      sub_ne_zero.mpr hne
    have htot : PyHeap.get_total_thickness
        (PyHeap.writeDict (PyHeap.get_shield_info ⟨⟨lh, dh⟩, sl⟩).1 d rec2) ≠
        PyHeap.get_total_thickness ⟨⟨lh, dh⟩, sl⟩ := by
      show ((PyHeap.readList _ sl).map _).sum ≠ ((PyHeap.readList _ sl).map _).sum
      rw [hrl2]
      show ((lh.getD sl []).map
          (fun i => ((dh.set d rec2).getD i default).thickness_cm)).sum ≠
        ((lh.getD sl []).map (fun i => (dh.getD i default).thickness_cm)).sum
      rw [sum_thickness_set dh d rec2 hd2 (lh.getD sl [])]
      intro heq
      have : ((lh.getD sl []).count d : ℚ) *
          (rec2.thickness_cm - (dh.getD d default).thickness_cm) = 0 := by
        linarith
      exact (mul_ne_zero hcount hdelta) this
    refine ⟨htot, fun hv => htot ?_⟩
    rw [pyheap_total_eq_view_sum, pyheap_total_eq_view_sum, hv]

/-- Witness for C10 on a one-layer heap: the fresh list address differs from
the simulator's, clearing the returned list leaves the total thickness
unchanged, and overwriting the shared layer dictionary changes it. -/
theorem claim_C10_witness :
    (PyHeap.get_shield_info ⟨⟨[[0]], [pbLayer]⟩, 0⟩).2 ≠
      (⟨⟨[[0]], [pbLayer]⟩, 0⟩ : PyHeap.SimState).simList ∧
    PyHeap.get_total_thickness
        (PyHeap.writeList (PyHeap.get_shield_info ⟨⟨[[0]], [pbLayer]⟩, 0⟩).1
          (PyHeap.get_shield_info ⟨⟨[[0]], [pbLayer]⟩, 0⟩).2 []) =
      PyHeap.get_total_thickness ⟨⟨[[0]], [pbLayer]⟩, 0⟩ ∧
    PyHeap.get_total_thickness
        (PyHeap.writeDict (PyHeap.get_shield_info ⟨⟨[[0]], [pbLayer]⟩, 0⟩).1 0
          ⟨"Lead", 9, 1, 1, 1, 1⟩) ≠
      PyHeap.get_total_thickness ⟨⟨[[0]], [pbLayer]⟩, 0⟩ :=
  ⟨(claim_C10_shallow_copy ⟨⟨[[0]], [pbLayer]⟩, 0⟩ (by decide)).1.2,
   ((claim_C10_shallow_copy ⟨⟨[[0]], [pbLayer]⟩, 0⟩ (by decide)).2.1 []).2,
   ((claim_C10_shallow_copy ⟨⟨[[0]], [pbLayer]⟩, 0⟩ (by decide)).2.2.2 0
      ⟨"Lead", 9, 1, 1, 1, 1⟩ (by decide) (by decide)
      (by norm_num [PyHeap.readDict, pbLayer])).1⟩

end ShieldLite
